import Mathlib

/-!
Verification of the analysis-and-synchronization engine of claude-context-box.

The development shallowly embeds the Python sources
`claude_context/scripts/update.py` and `claude_context/scripts/context.py`:
text is modelled as `List Char`, Python string operations (`split`, `strip`,
`startswith`, `str.split()` with no argument, `str.title()`, ...) are given
as executable Lean functions with the same semantics, and the functions of
the scripts (`analyze_python_file`, `generate_context_llm`,
`update_contexts` / `update_existing_contexts`, `analyze_dependencies`,
`create_project_llm`, `create_missing_contexts`) are translated line by
line.  File-system reads are modelled by passing file contents (or `none`
for an unreadable file) as values.
-/

namespace CCB

/-- Text is modelled as a list of characters. -/
abbrev Chars := List Char

/-- Abbreviation turning a string literal into the character-list model. -/
def txt (s : String) : Chars := s.toList

/-- Whitespace characters stripped by Python `str.strip()` /
split on by `str.split()` with no argument. -/
def isSpaceChar (c : Char) : Bool :=
  c == ' ' || c == '\t' || c == '\n' || c == '\r' || c == '\x0b' || c == '\x0c'

/-- Python `str.lstrip()`. -/
def lstrip (l : Chars) : Chars := l.dropWhile isSpaceChar

/-- Python `str.rstrip()`. -/
def rstrip (l : Chars) : Chars := (l.reverse.dropWhile isSpaceChar).reverse

/-- Python `str.strip()`. -/
def pyStrip (l : Chars) : Chars := rstrip (lstrip l)

/-- First occurrence of `sep` in `s`: returns the text before it and the
text after it.  `none` when `sep` does not occur, so
`(splitFirst sep s).isSome` is Python `sep in s` and the first component
is Python `s.split(sep)[0]`. -/
def splitFirst (sep : Chars) (s : Chars) : Option (Chars × Chars) :=
  if sep.isPrefixOf s then some ([], s.drop sep.length)
  else
    match s with
    | [] => none
    | c :: cs => (splitFirst sep cs).map fun p => (c :: p.1, p.2)

/-- Python `sep in s` (substring containment). -/
def occursIn (sep : Chars) (s : Chars) : Bool := (splitFirst sep s).isSome

/-- Python `s.split(sep)[1]`: the text between the first and the second
occurrence of `sep` (all of the remainder when `sep` occurs only once).
Call sites in the scripts guard this with `sep in s`, so the `none`
fallback `[]` is never reached there. -/
def pyIndex1 (sep : Chars) (s : Chars) : Chars :=
  match splitFirst sep s with
  | none => []
  | some (_, r) =>
      match splitFirst sep r with
      | none => r
      | some (m, _) => m

/-- Python `s.split(sep)[0]`. -/
def segBefore (sep : Chars) (s : Chars) : Chars :=
  match splitFirst sep s with
  | none => s
  | some (a, _) => a

/-- Python `s.split('\n')`. -/
def splitLines : Chars → List Chars
  | [] => [[]]
  | c :: cs =>
      if c = '\n' then [] :: splitLines cs
      else
        match splitLines cs with
        | [] => [[c]]
        | t :: ts => (c :: t) :: ts

/-- Helper for `wsSplit`: `acc` is the current token, reversed. -/
def wsSplitGo : Chars → Chars → List Chars
  | acc, [] => if acc = [] then [] else [acc.reverse]
  | acc, c :: cs =>
      if isSpaceChar c then
        if acc = [] then wsSplitGo [] cs else acc.reverse :: wsSplitGo [] cs
      else wsSplitGo (c :: acc) cs

/-- Python `s.split()` with no argument: split on whitespace runs,
dropping empty tokens. -/
def wsSplit (s : Chars) : List Chars := wsSplitGo [] s

/-- Python `sep.join(parts)`. -/
def joinSep (sep : Chars) : List Chars → Chars
  | [] => []
  | [x] => x
  | x :: xs => x ++ sep ++ joinSep sep xs

/-- Lexicographic (code-point) order on text, as used by Python `sorted`
on strings. -/
def lexLt : Chars → Chars → Bool
  | [], [] => false
  | [], _ :: _ => true
  | _ :: _, [] => false
  | a :: as, b :: bs => if a < b then true else if a = b then lexLt as bs else false

/-- Python `str.title()`: the first cased character of every run of
alphabetic characters is uppercased, the rest lowercased. -/
def pyTitleGo : Bool → Chars → Chars
  | _, [] => []
  | prev, c :: cs =>
      if c.isAlpha then (if prev then c.toLower else c.toUpper) :: pyTitleGo true cs
      else c :: pyTitleGo false cs

/-- Python `str.title()`. -/
def pyTitle (s : Chars) : Chars := pyTitleGo false s

/-- `os.path.basename`: the text after the last `/`. -/
def lastSeg (m : Chars) : Chars := (m.reverse.takeWhile (fun c => c != '/')).reverse

/-- Python `name.startswith('_')`. -/
def startsU (n : Chars) : Bool := (txt "_").isPrefixOf n

/-!
Model of the Python AST as consumed by `analyze_python_file`
(`context.py` lines 51-78 and the identical copy in `update.py` lines
416-443).  That function only iterates `ast.walk(tree)` and, per node,
reads its type, its `name`, its `col_offset` and — for a `ClassDef` — the
`FunctionDef` names of its direct body.  We therefore embed the parse
result of a file as the `ast.walk` node sequence carrying exactly this
information.
-/

/-- A direct body item of a `ClassDef`: either a `FunctionDef` (a method)
or any other statement kind. -/
inductive ClassItem where
  | funcItem (name : Chars)
  | otherItem
deriving DecidableEq

/-- One node of the `ast.walk` sequence. -/
inductive WalkNode where
  | classNode (name : Chars) (directBody : List ClassItem)
  | funcNode (name : Chars) (colOffset : Nat)
  | otherNode
deriving DecidableEq

/-- An extracted class: name and public methods (`analyze_python_file`). -/
structure PyClass where
  name : Chars
  methods : List Chars
deriving DecidableEq

/-- Result of `analyze_python_file`: the dict
`\x7b'classes': [...], 'functions': [...]\x7d`. -/
structure Analysis where
  classes : List PyClass
  functions : List Chars
deriving DecidableEq

/-- A source file: its name, its raw text (`none` when the file cannot be
read or decoded) and its parse result as the `ast.walk` sequence
(`none` when reading or `ast.parse` raises). -/
structure PyFile where
  name : Chars
  raw : Option Chars
  walk : Option (List WalkNode)
deriving DecidableEq

/-- The method extraction inside the `ClassDef` branch of
`analyze_python_file`: direct body items that are `FunctionDef`s whose
name does not start with an underscore. -/
def methodsOf (body : List ClassItem) : List Chars :=
  body.filterMap fun it =>
    match it with
    | .funcItem n => if startsU n then none else some n
    | .otherItem => none

/-- The classes collected by `analyze_python_file` over the walk:
every `ClassDef` node (the class name itself is not filtered). -/
def classesOf (w : List WalkNode) : List PyClass :=
  w.filterMap fun nd =>
    match nd with
    | .classNode n b => some ⟨n, methodsOf b⟩
    | _ => none

/-- The functions collected by `analyze_python_file` over the walk:
`FunctionDef` nodes at column offset 0 whose name does not start with an
underscore. -/
def functionsOf (w : List WalkNode) : List Chars :=
  w.filterMap fun nd =>
    match nd with
    | .funcNode n off => if off == 0 && !startsU n then some n else none
    | _ => none

/-- Model of `analyze_python_file` (`context.py` 51-78, `update.py` 416-443): on any
read/decode/parse failure the bare `except` returns empty lists. -/
def analyzePythonFile (f : PyFile) : Analysis :=
  match f.walk with
  | none => ⟨[], []⟩
  | some w => ⟨classesOf w, functionsOf w⟩

/-- The per-module analysis loop shared by `generate_context_llm`
(`context.py` 92-97, `update.py` 457-462) and `update_contexts` /
`update_existing_contexts` (`context.py` 222-228, `update.py` 534-540):
files whose name starts with `test_` are skipped, the rest have their
classes and functions concatenated. -/
def collectStep (acc : Analysis) (f : PyFile) : Analysis :=
  if (txt "test_").isPrefixOf f.name then acc
  else
    ⟨acc.classes ++ (analyzePythonFile f).classes,
     acc.functions ++ (analyzePythonFile f).functions⟩

/-- The per-module analysis loop, as a fold of `collectStep`. -/
def collectAnalyses (files : List PyFile) : Analysis :=
  files.foldl collectStep ⟨[], []⟩

/-!
`CONTEXT.llm` generation and update (`context.py` `generate_context_llm`,
`update_contexts`; `update.py` `generate_context_llm`,
`update_existing_contexts`).
-/

/-- Module-type classification of `generate_context_llm`
(`context.py` 99-109). -/
def moduleType (mpath : Chars) : Chars :=
  let low := mpath.map Char.toLower
  if occursIn (txt "api") low then txt "api"
  else if occursIn (txt "model") low then txt "data"
  else if occursIn (txt "service") low then txt "service"
  else if occursIn (txt "util") low then txt "util"
  else txt "module"

/-- The rendered interface entries: one `- class C` line per class with
its `  - m()` method lines, then one `- f()` line per function
(`context.py` 119-127 and 236-241). -/
def ifaceBody (a : Analysis) : Chars :=
  (a.classes.map fun c =>
      txt "\n- class " ++ c.name ++
        (c.methods.map fun m => txt "\n  - " ++ m ++ txt "()").flatten).flatten
    ++ (a.functions.map fun f => txt "\n- " ++ f ++ txt "()").flatten

/-- The fixed head of a fresh `CONTEXT.llm` (`context.py` 111-117):
component name is `basename.title().replace('_','')`. -/
def contextHeader (mpath : Chars) : Chars :=
  txt "@component: " ++ (pyTitle (lastSeg mpath)).filter (fun c => c != '_')
    ++ txt "\n@type: " ++ moduleType mpath
    ++ txt "\n@deps: []\n@purpose: [Add module purpose]\n\n@interface:"

/-- Model of `generate_context_llm` (`context.py` 80-137): `none` when the module
directory has no `.py` files at all (`if not py_files: return None`);
otherwise the full descriptor text. -/
def generateContextLlm (mpath : Chars) (files : List PyFile) : Option Chars :=
  if files = [] then none
  else
    some (contextHeader mpath ++ ifaceBody (collectAnalyses files) ++
      txt "\n\n@behavior:\n- [Add key behavior]\n- [Add error handling]\n- [Add performance notes]\n")

/-- The `@interface:` marker searched for by the update routines. -/
def interfaceMarker : Chars := txt "@interface:"

/-- The `@behavior:` marker searched for by the update routines. -/
def behaviorMarker : Chars := txt "@behavior:"

/-- The replacement text `new_interface` built by `update_contexts`
(`context.py` 234-241). -/
def newInterface (a : Analysis) : Chars := txt "\n@interface:" ++ ifaceBody a

/-- The merge step of `update_contexts` (`context.py` 230-252) and
`update_existing_contexts` (`update.py` 542-563): when `'@interface:' in
content` the file is rewritten as
`content.split('@interface:')[0] + new_interface + after` with
`after = '\n@behavior:' + content.split('@behavior:')[1]` when
`'@behavior:' in content` and `after = ''` otherwise; when the interface
marker is absent nothing is written (`none`). -/
def updateContextContent (a : Analysis) (content : Chars) : Option Chars :=
  match splitFirst interfaceMarker content with
  | none => none
  | some (before, _) =>
      some (before ++ newInterface a ++
        (if occursIn behaviorMarker content then
          txt "\n@behavior:" ++ pyIndex1 behaviorMarker content
        else []))

/-- The update loop over all existing `CONTEXT.llm` files: each pair is a
file's current content together with the fresh analysis of its module;
files whose content lacks the interface marker are skipped, the others
are rewritten. -/
def updateAllContexts (l : List (Chars × Analysis)) : List Chars :=
  l.filterMap fun ca => updateContextContent ca.2 ca.1

/-- The module gate of `create_missing_contexts` / `init_contexts`:
`any(f.endswith('.py') for f in files)`. -/
def hasPyGate (files : List PyFile) : Bool :=
  files.any fun f => (txt ".py").isSuffixOf f.name

/-- State of one source-bearing directory as seen by the updater:
its path, its `.py` files, whether `CONTEXT.llm` exists, and the
modification times consulted by `analyze_project_state`. -/
structure DirEntry where
  path : Chars
  files : List PyFile
  hasContext : Bool
  ctxMtime : Nat
  pyMtimes : List Nat
deriving DecidableEq

/-- Model of `create_missing_contexts` (`update.py` 504-525): directories whose
`CONTEXT.llm` already exists are skipped (`continue`); otherwise
`generate_context_llm` is written when it returns content. -/
def createMissingContexts (dirs : List DirEntry) : List (Chars × Chars) :=
  dirs.filterMap fun d =>
    if d.hasContext then none
    else (generateContextLlm d.path d.files).map fun c => (d.path, c)

/-- The outdated-context detection of `analyze_project_state`
(`update.py` 687-696): a context is outdated when some `.py` file in its
directory has a strictly newer modification time. -/
def outdatedContexts (dirs : List DirEntry) : List DirEntry :=
  dirs.filter fun d => d.pyMtimes.any fun t => d.ctxMtime < t

/-!
Dependency analysis (`update.py` `analyze_dependencies`, lines 192-223).
-/

/-- Python `set.add` followed by the final `list(...)`: modelled as an
insertion-ordered duplicate-free list.  A real Python set of strings
iterates in an order that is not reproducible across processes (hash
randomization), so only enumeration-insensitive properties of the
resulting lists — membership and duplicate-freeness — are proved below;
where the rendering order of a dependency list matters (the
`PROJECT.llm` byte-level statements), the enumeration produced by each
run is passed as an explicit input rather than recomputed, so that no
theorem forces two runs to agree on it. -/
def insertNew (l : List Chars) (x : Chars) : List Chars :=
  if x ∈ l then l else l ++ [x]

/-- The import-line filter (`update.py` 206-207): lines whose stripped
text starts with `import ` or `from `. -/
def importLines (content : Chars) : List Chars :=
  (splitLines content).filter fun l =>
    (txt "import ").isPrefixOf (pyStrip l) || (txt "from ").isPrefixOf (pyStrip l)

/-- The per-file edge extraction (`update.py` 209-216): only lines whose
raw (unstripped) text starts with `from ` are considered; the imported
name is `parts[1].split('.')[0]` of the whitespace split, and it is added
to the set only when it occurs among the first path segments of the
scanned module paths. -/
def importStep (segs : List Chars) (acc : List Chars) (line : Chars) : List Chars :=
  if (txt "from ").isPrefixOf line then
    match wsSplit line with
    | _ :: p1 :: _ =>
        let imp := segBefore (txt ".") p1
        if imp ∈ segs then insertNew acc imp else acc
    | _ => acc
  else acc

/-- The edge extraction over one file's import lines, as a fold of
`importStep`. -/
def importTargets (segs : List Chars) (content : Chars) (acc0 : List Chars) : List Chars :=
  (importLines content).foldl (importStep segs) acc0

/-- The per-file step of `moduleDeps`: files that cannot be read are
skipped by the bare `except` and contribute nothing. -/
def depStep (segs : List Chars) (acc : List Chars) (f : PyFile) : List Chars :=
  match f.raw with
  | none => acc
  | some content => importTargets segs content acc

/-- The per-module dependency set (`update.py` 196-218). -/
def moduleDeps (segs : List Chars) (files : List PyFile) : List Chars :=
  files.foldl (depStep segs) []

/-- Model of `analyze_dependencies` (`update.py` 192-223): the known-name set is
`[m.split('/')[0] for m in modules]`; modules with an empty dependency
set are omitted from the result dict. -/
def analyzeDependencies (mods : List (Chars × List PyFile)) : List (Chars × List Chars) :=
  let segs := mods.map fun m => segBefore (txt "/") m.1
  mods.filterMap fun m =>
    let ds := moduleDeps segs m.2
    if ds = [] then none else some (m.1, ds)

/-!
Project-level aggregation: `create_project_llm` (`update.py` 225-344).
The function reads the previous `PROJECT.llm` (if any), extracts the
version, the critical paths and the recent changes, rebuilds the whole
document and rewrites it.  The local helper `dep_tree` built at lines
295-300 is dead code (never rendered) and is not modelled.
-/

/-- One module entry as consumed by `create_project_llm`: its path (a key
of the `find_modules` dict) and the content of its `CONTEXT.llm` (`none`
when the file is absent or unreadable). -/
structure ProjMod where
  path : Chars
  ctx : Option Chars
deriving DecidableEq

/-- Insertion into a list sorted ascending by `lexLt` on `path`. -/
def insertByPath (x : ProjMod) : List ProjMod → List ProjMod
  | [] => [x]
  | y :: ys => if lexLt y.path x.path then y :: insertByPath x ys else x :: y :: ys

/-- Python `sorted(modules.keys())` (`update.py` 266, 303, 322), with the
dict entries carried along. -/
def sortByPath (l : List ProjMod) : List ProjMod := l.foldr insertByPath []

/-- The `@version:` marker of `PROJECT.llm`. -/
def versionMarker : Chars := txt "@version:"

/-- The `@critical_paths:` marker of `PROJECT.llm`. -/
def pathsMarker : Chars := txt "@critical_paths:"

/-- The `@recent_changes:` marker of `PROJECT.llm`. -/
def recentChangesMarker : Chars := txt "@recent_changes:"

/-- The `@purpose:` marker of `CONTEXT.llm`. -/
def purposeMarker : Chars := txt "@purpose:"

/-- Version extraction (`update.py` 240-242):
`content.split('@version:')[1].split('\n')[0].strip()` when the marker is
present, the default `1.0.0` otherwise. -/
def extractVersion (c : Chars) : Chars :=
  if occursIn versionMarker c then pyStrip (segBefore (txt "\n") (pyIndex1 versionMarker c))
  else txt "1.0.0"

/-- Recent-changes extraction (`update.py` 245-248): the stripped lines of
`content.split('@recent_changes:')[1]` that start with `-`, capped at
10. -/
def extractChanges (c : Chars) : List Chars :=
  if occursIn recentChangesMarker c then
    ((((splitLines (pyIndex1 recentChangesMarker c)).map pyStrip).filter
        fun l => (txt "-").isPrefixOf l)).take 10
  else []

/-- Critical-paths extraction (`update.py` 251-254): the stripped lines of
`content.split('@critical_paths:')[1].split('@')[0]` that start with
`-`. -/
def extractPaths (c : Chars) : List Chars :=
  if occursIn pathsMarker c then
    ((splitLines (segBefore (txt "@") (pyIndex1 pathsMarker c))).map pyStrip).filter
      fun l => (txt "-").isPrefixOf l
  else []

/-- Version carried from the previous `PROJECT.llm`; `none` models an
absent or unreadable file (the surrounding `try` keeps the default). -/
def prevVersion : Option Chars → Chars
  | none => txt "1.0.0"
  | some c => extractVersion c

/-- Recent changes carried from the previous `PROJECT.llm`. -/
def prevChanges : Option Chars → List Chars
  | none => []
  | some c => extractChanges c

/-- Critical paths carried from the previous `PROJECT.llm`. -/
def prevPaths : Option Chars → List Chars
  | none => []
  | some c => extractPaths c

/-- Purpose line read from a module's `CONTEXT.llm` (`update.py`
271-280): `ctx_content.split('@purpose:')[1].split('\n')[0].strip()`. -/
def extractPurpose : Option Chars → Chars
  | none => []
  | some c =>
      if occursIn purposeMarker c then
        pyStrip (segBefore (txt "\n") (pyIndex1 purposeMarker c))
      else []

/-- Python `dependencies.get(module_path, [])`. -/
def depsOf : List (Chars × List Chars) → Chars → List Chars
  | [], _ => []
  | (k, v) :: rest, m => if k = m then v else depsOf rest m

/-- The change description (`update.py` 332-335): `Added new modules` when
there are more modules than carried-over change entries. -/
def changeDesc (mods : List ProjMod) (existing : List Chars) : Chars :=
  if existing.length < mods.length then txt "Added new modules"
  else txt "Updated project structure"

/-- One `@architecture:` line (`update.py` 282-289). -/
def archLine (deps : List (Chars × List Chars)) (m : ProjMod) : Chars :=
  let purpose := extractPurpose m.ctx
  let ds := depsOf deps m.path
  txt "\n- " ++ m.path ++ txt "/"
    ++ (if purpose = [] then [] else txt ": " ++ purpose)
    ++ (if ds = [] then [] else txt " [@deps: " ++ joinSep (txt ", ") ds ++ txt "]")

/-- One `@dependency_graph:` line (`update.py` 303-306). -/
def depGraphLine (deps : List (Chars × List Chars)) (m : ProjMod) : Chars :=
  let ds := depsOf deps m.path
  if ds = [] then [] else txt "\n" ++ m.path ++ txt " -> " ++ joinSep (txt " -> ") ds

/-- One `@test_coverage:` line (`update.py` 322-327). -/
def covLine (baselines : List Chars) (m : ProjMod) : Chars :=
  txt "\n- " ++ m.path ++ txt "/: " ++
    (if (txt "test_baseline_" ++ lastSeg m.path ++ txt ".py") ∈ baselines then
      txt "baseline tests"
    else txt "no tests")

/-- The opening of the rebuilt `PROJECT.llm` (`update.py` 259-263). -/
def projHeader (cwd ver now : Chars) : Chars :=
  txt "@project: " ++ cwd ++ txt "\n@version: " ++ ver ++ txt "\n@updated: " ++ now

/-- The `@architecture:` section (`update.py` 263-289). -/
def projArch (mods : List ProjMod) (deps : List (Chars × List Chars)) : Chars :=
  txt "\n\n@architecture:" ++ ((sortByPath mods).map (archLine deps)).flatten

/-- The `@dependency_graph:` section (`update.py` 291-306). -/
def projDepGraph (mods : List ProjMod) (deps : List (Chars × List Chars)) : Chars :=
  txt "\n\n@dependency_graph:" ++ ((sortByPath mods).map (depGraphLine deps)).flatten

/-- The `@critical_paths:` section body (`update.py` 308-315): carried
paths when any, placeholder lines otherwise. -/
def projPathsPart (paths : List Chars) : Chars :=
  txt "\n\n@critical_paths:" ++
    (if paths = [] then
      txt "\n- [Analyze code to determine critical paths]\n- [Add user flow paths here]"
    else (paths.map fun p => txt "\n" ++ p).flatten)

/-- The `@test_coverage:` section (`update.py` 317-327). -/
def projCoverage (mods : List ProjMod) (baselines : List Chars) : Chars :=
  txt "\n\n@test_coverage:" ++ ((sortByPath mods).map (covLine baselines)).flatten

/-- The `@recent_changes:` section body (`update.py` 330-339): one new
timestamped entry, then the carried entries capped at 9. -/
def projChangesBody (now desc : Chars) (carried : List Chars) : Chars :=
  txt "\n- " ++ now ++ txt ": " ++ desc ++
    ((carried.take 9).map fun ch => txt "\n" ++ ch).flatten

/-- Everything of the rebuilt `PROJECT.llm` before the
`@recent_changes:` marker. -/
def projFront (mods : List ProjMod) (deps : List (Chars × List Chars))
    (baselines : List Chars) (cwd ver now : Chars) (paths : List Chars) : Chars :=
  projHeader cwd ver now ++ projArch mods deps ++ projDepGraph mods deps ++
    projPathsPart paths ++ projCoverage mods baselines ++ txt "\n\n"

/-- Model of `create_project_llm` (`update.py` 225-344): `mods` are the
`find_modules` entries with their `CONTEXT.llm` contents, `deps` the
result of `analyze_dependencies`, `baselines` the file names in `tests/`,
`cwd` the project directory basename, `now`
`datetime.now().isoformat()`, and `prev` the previous `PROJECT.llm`
content (`none` when absent or unreadable). -/
def createProjectLlm (mods : List ProjMod) (deps : List (Chars × List Chars))
    (baselines : List Chars) (cwd now : Chars) (prev : Option Chars) : Chars :=
  projFront mods deps baselines cwd (prevVersion prev) now (prevPaths prev) ++
    recentChangesMarker ++
    projChangesBody now (changeDesc mods (prevChanges prev)) (prevChanges prev)

/-!
Conflict detection.  Modelled from the spec: the repository source
contains no Conflict Detector implementation (no singular/plural pairing
or role-duplication code exists anywhere under the scripts); the
definitions below follow the words of spec §4.5, "Singular/plural
pairing": for every directory name ending in a pluralizing suffix (here
the suffix `s`, as in the spec's `model`/`models` example), check whether
a directory with the singular form also exists at the same nesting
level; if so, emit a Medium-severity conflict recommending the plural
form as canonical.
-/

/-- Conflict severity (spec §3, `Conflict`). -/
inductive Severity where
  | high
  | medium
deriving DecidableEq

/-- Conflict kind (spec §3, `Conflict`). -/
inductive ConflictKind where
  | duplicateRole
  | singularPluralPair
deriving DecidableEq

/-- Modelled from the spec: a structural-naming conflict record
(spec §3, `Conflict`). -/
structure Conflict where
  kind : ConflictKind
  severity : Severity
  directories : List Chars
  message : Chars
  recommendation : Chars
deriving DecidableEq

/-- Path of a directory from its nesting level (parent path) and name. -/
def joinPath (parent dirName : Chars) : Chars := parent ++ txt "/" ++ dirName

/-- Whether a directory name ends in the pluralizing suffix `s`. -/
def endsS (n : Chars) : Bool :=
  match n.reverse with
  | c :: _ => c == 's'
  | [] => false

/-- The Medium-severity conflict emitted for a singular/plural pair at
parent `p` with singular name `w`. -/
def spConflict (p w : Chars) : Conflict :=
  { kind := .singularPluralPair
    severity := .medium
    directories := [joinPath p w, joinPath p (w ++ txt "s")]
    message := txt "Both singular and plural directory names exist"
    recommendation := joinPath p (w ++ txt "s") }

/-- Modelled from the spec (§4.5): the conflict emitted for one directory
entry `(parent, name)`, if any — a Medium-severity conflict when `name`
ends in the pluralizing suffix and the singular form exists at the same
nesting level. -/
def spConflictAt (dirs : List (Chars × Chars)) : Chars × Chars → Option Conflict
  | (parent, n) =>
      if endsS n ∧ (parent, n.dropLast) ∈ dirs then some (spConflict parent n.dropLast)
      else none

/-- Modelled from the spec (§4.5): the singular/plural heuristic of the
Conflict Detector over the scanned directory set, each directory given as
`(parent path, directory name)`. -/
def detectSingularPlural (dirs : List (Chars × Chars)) : List Conflict :=
  dirs.filterMap (spConflictAt dirs)

/-!
Helper lemmas.
-/

theorem foldl_preserves {α β : Type} (P : β → Prop) (step : β → α → β)
    (hstep : ∀ b a, P b → P (step b a)) :
    ∀ (l : List α) (b : β), P b → P (l.foldl step b) := by
  intro l
  induction l with
  | nil => intro b hb; simpa using hb
  | cons a t ih => intro b hb; simpa using ih _ (hstep _ _ hb)

theorem insertNew_forall {P : Chars → Prop} (l : List Chars) (x : Chars)
    (hl : ∀ y ∈ l, P y) (hx : P x) : ∀ y ∈ insertNew l x, P y := by
  intro y hy
  unfold insertNew at hy
  split at hy
  · exact hl y hy
  · rcases List.mem_append.mp hy with h | h
    · exact hl y h
    · simp only [List.mem_singleton] at h
      exact h ▸ hx

theorem insertNew_nodup (l : List Chars) (x : Chars) (h : l.Nodup) :
    (insertNew l x).Nodup := by
  unfold insertNew
  split
  · exact h
  · next hx => simp [List.nodup_append, h, hx]

theorem importStep_mem (segs : List Chars) (acc : List Chars) (line : Chars)
    (hacc : ∀ y ∈ acc, y ∈ segs) : ∀ y ∈ importStep segs acc line, y ∈ segs := by
  unfold importStep
  split
  · rcases hw : wsSplit line with _ | ⟨a, _ | ⟨p1, rest⟩⟩
    · simpa using hacc
    · simpa using hacc
    · simp only
      split
      · next hmem => exact insertNew_forall acc _ hacc hmem
      · exact hacc
  · exact hacc

theorem importStep_nodup (segs : List Chars) (acc : List Chars) (line : Chars)
    (hacc : acc.Nodup) : (importStep segs acc line).Nodup := by
  unfold importStep
  split
  · rcases hw : wsSplit line with _ | ⟨a, _ | ⟨p1, rest⟩⟩
    · simpa using hacc
    · simpa using hacc
    · simp only
      split
      · exact insertNew_nodup acc _ hacc
      · exact hacc
  · exact hacc

theorem moduleDeps_mem (segs : List Chars) (files : List PyFile) :
    ∀ y ∈ moduleDeps segs files, y ∈ segs := by
  unfold moduleDeps
  refine foldl_preserves (fun acc => ∀ y ∈ acc, y ∈ segs) _ ?_ files [] (by simp)
  intro acc f hacc
  unfold depStep
  rcases f.raw with _ | content
  · exact hacc
  · unfold importTargets
    exact foldl_preserves (fun acc => ∀ y ∈ acc, y ∈ segs) _
      (fun b a hb => importStep_mem segs b a hb) _ acc hacc

theorem moduleDeps_nodup (segs : List Chars) (files : List PyFile) :
    (moduleDeps segs files).Nodup := by
  unfold moduleDeps
  refine foldl_preserves (fun acc : List Chars => acc.Nodup) _ ?_ files [] (by simp)
  intro acc f hacc
  unfold depStep
  rcases f.raw with _ | content
  · exact hacc
  · unfold importTargets
    exact foldl_preserves (fun acc : List Chars => acc.Nodup) _
      (fun b a hb => importStep_nodup segs b a hb) _ acc hacc

/-!
Claims C3, C4 and C5.
-/

/-- C3 (confirmed).  Dependency edges only target real scanned
directories: every name in a dependency list produced by
`analyze_dependencies` is the first path segment of some scanned module
path — a directory visited by the current scan — and consequently an
imported name matching no such directory never produces an edge. -/
theorem c3_edges_target_scanned_dirs (mods : List (Chars × List PyFile))
    (p : Chars) (ds : List Chars) (h : (p, ds) ∈ analyzeDependencies mods) :
    ∀ d ∈ ds, d ∈ mods.map fun m => segBefore (txt "/") m.1 := by
  intro d hd
  unfold analyzeDependencies at h
  rcases List.mem_filterMap.mp h with ⟨m, hm, hf⟩
  simp only at hf
  split at hf
  · exact absurd hf (by simp)
  · simp only [Option.some.injEq, Prod.mk.injEq] at hf
    obtain ⟨hp, rfl⟩ := hf
    exact moduleDeps_mem _ _ d hd

/-- C3 witness: in the two-module scenario the edge list of `auth` is
`[models]`, and its target is among the scanned first segments. -/
theorem c3_witness :
    txt "models" ∈
      ([(txt "auth", [(⟨txt "service.py", some (txt "from models import User"), some []⟩ : PyFile)]),
        (txt "models", [⟨txt "user.py", some (txt "x = 1"), some []⟩])].map
          fun m => segBefore (txt "/") m.1) :=
  c3_edges_target_scanned_dirs _ (txt "auth") [txt "models"] (by decide)
    (txt "models") (by decide)

/-- C4 counterexample: a module named `auth` containing a file with the
line `from auth import helpers` yields the dependency list `[auth]` — the
computed dependency list does contain the module itself, so self-edges
are not dropped. -/
theorem c4_counterexample :
    analyzeDependencies
        [(txt "auth", [⟨txt "a.py", some (txt "from auth import helpers"), some []⟩])]
      = [(txt "auth", [txt "auth"])] := by decide

/-- C4 (corrected).  Deduplication holds: every dependency list produced
by `analyze_dependencies` is duplicate-free (the Python `set` admits each
`(module, target)` pair at most once); self-edges, however, are not
dropped (see the counterexample). -/
theorem c4_amended (mods : List (Chars × List PyFile)) (p : Chars) (ds : List Chars)
    (h : (p, ds) ∈ analyzeDependencies mods) : ds.Nodup := by
  unfold analyzeDependencies at h
  rcases List.mem_filterMap.mp h with ⟨m, hm, hf⟩
  simp only at hf
  split at hf
  · exact absurd hf (by simp)
  · simp only [Option.some.injEq, Prod.mk.injEq] at hf
    obtain ⟨hp, rfl⟩ := hf
    exact moduleDeps_nodup _ _

/-- C4 witness: the self-edge dependency list `[auth]` of the
counterexample module is duplicate-free. -/
theorem c4_amended_witness :
    ([txt "auth"] : List Chars).Nodup :=
  c4_amended
    [(txt "auth", [⟨txt "a.py", some (txt "from auth import helpers"), some []⟩])]
    (txt "auth") [txt "auth"] (by decide)

/-- C5 counterexample: a file whose parse tree contains the top-level
class `_Hidden` still yields `_Hidden` in the extracted class list —
underscore-prefixed class names are not excluded (the `ClassDef` branch
of `analyze_python_file` never checks the class name). -/
theorem c5_counterexample :
    (analyzePythonFile
        ⟨txt "x.py", some (txt "class _Hidden: pass"),
         some [.classNode (txt "_Hidden") []]⟩).classes
      = [⟨txt "_Hidden", []⟩] ∧ startsU (txt "_Hidden") = true := by decide

/-- C5 (corrected).  The underscore visibility rule holds for top-level
functions and for class methods — no extracted function name and no
extracted method name starts with an underscore — but not for class
names (see the counterexample). -/
theorem c5_amended (f : PyFile) :
    (∀ n ∈ (analyzePythonFile f).functions, startsU n = false)
    ∧ (∀ c ∈ (analyzePythonFile f).classes, ∀ m ∈ c.methods, startsU m = false) := by
  unfold analyzePythonFile
  rcases f.walk with _ | w
  · simp
  · constructor
    · intro n hn
      simp only [functionsOf] at hn
      rcases List.mem_filterMap.mp hn with ⟨nd, _, hnd⟩
      rcases nd with ⟨cn, cb⟩ | ⟨fn, off⟩ | _
      · simp at hnd
      · simp only at hnd
        cases hg : (off == 0 && !startsU fn) with
        | true =>
            rw [hg, if_pos rfl] at hnd
            simp only [Option.some.injEq] at hnd
            subst hnd
            have h2 := ((Bool.and_eq_true _ _).mp hg).2
            cases hsf : startsU fn with
            | false => rfl
            | true => rw [hsf] at h2; simp at h2
        | false =>
            rw [hg] at hnd
            simp at hnd
      · simp at hnd
    · intro c hc m hm
      simp only [classesOf] at hc
      rcases List.mem_filterMap.mp hc with ⟨nd, _, hnd⟩
      rcases nd with ⟨cn, cb⟩ | ⟨fn, off⟩ | _
      · simp only [Option.some.injEq] at hnd
        subst hnd
        simp only [methodsOf] at hm
        rcases List.mem_filterMap.mp hm with ⟨it, _, hit⟩
        rcases it with ⟨n0⟩ | _
        · simp only at hit
          cases hb : startsU n0 with
          | true => rw [hb] at hit; simp at hit
          | false =>
              rw [hb] at hit
              simp only [Bool.false_eq_true, if_false, Option.some.injEq] at hit
              subst hit
              exact hb
        · simp at hit
      · simp at hnd
      · simp at hnd

/-- C5 witness: applying the amended rule to a file defining both
`login` and `_internal` at top level shows the surviving name `login`
does not start with an underscore. -/
theorem c5_amended_witness : startsU (txt "login") = false :=
  (c5_amended
      ⟨txt "s.py", some (txt "def login(): pass"),
       some [.funcNode (txt "login") 0, .funcNode (txt "_internal") 0]⟩).1
    (txt "login") (by decide)

theorem countP_filterMap {α β : Type} (f : α → Option β) (q : β → Bool) (l : List α) :
    (l.filterMap f).countP q = l.countP fun a => (f a).elim false q := by
  induction l with
  | nil => simp
  | cons a t ih =>
      cases hf : f a with
      | none => simp [List.filterMap_cons, hf, List.countP_cons, ih]
      | some b => simp [List.filterMap_cons, hf, List.countP_cons, ih]

theorem dropLast_concat_s (w : Chars) : (w ++ txt "s").dropLast = w := by
  rw [show txt "s" = ['s'] from rfl]
  exact List.dropLast_concat

theorem endsS_concat (w : Chars) : endsS (w ++ txt "s") = true := by
  unfold endsS
  rw [show txt "s" = ['s'] from rfl, List.reverse_append]
  simp

theorem endsS_shape (n : Chars) (h : endsS n = true) : ∃ m, n = m ++ ['s'] := by
  unfold endsS at h
  rcases hr : n.reverse with _ | ⟨c, rest⟩
  · rw [hr] at h; simp at h
  · rw [hr] at h
    have hc : c = 's' := by simpa using h
    refine ⟨rest.reverse, ?_⟩
    have h2 := congrArg List.reverse hr
    simpa [hc] using h2

theorem countP_decide_eq_one {α : Type} [DecidableEq α] (l : List α) (a : α)
    (hnd : l.Nodup) (ha : a ∈ l) : (l.countP fun x => decide (x = a)) = 1 := by
  induction l with
  | nil => simp at ha
  | cons x t ih =>
      rw [List.countP_cons]
      rcases List.mem_cons.mp ha with he | hat
      · have hz : t.countP (fun y => decide (y = a)) = 0 :=
          List.countP_eq_zero.mpr fun y hy => by
            simp only [decide_eq_true_eq]
            intro hya
            exact (List.nodup_cons.mp hnd).1 ((hya.trans he) ▸ hy)
        rw [hz]
        simp [he.symm]
      · have hxa : ¬ x = a := fun hxe =>
          (List.nodup_cons.mp hnd).1 (hxe ▸ hat)
        rw [ih (List.nodup_cons.mp hnd).2 hat]
        simp [hxa]

theorem joinPath_inj {p1 n1 p2 n2 : Chars} (h1 : ('/' : Char) ∉ n1)
    (h2 : ('/' : Char) ∉ n2) (he : joinPath p1 n1 = joinPath p2 n2) :
    p1 = p2 ∧ n1 = n2 := by
  unfold joinPath at he
  rw [show txt "/" = ['/'] from rfl] at he
  simp only [List.append_assoc, List.singleton_append] at he
  induction p1 generalizing p2 with
  | nil =>
      cases p2 with
      | nil => simpa using he
      | cons c p2' =>
          simp only [List.nil_append, List.cons_append, List.cons.injEq] at he
          obtain ⟨rfl, he2⟩ := he
          exact absurd (he2 ▸ List.mem_append_right p2' (List.mem_cons_self _ _)) h1
  | cons c p1' ih =>
      cases p2 with
      | nil =>
          simp only [List.nil_append, List.cons_append, List.cons.injEq] at he
          obtain ⟨rfl, he2⟩ := he
          exact absurd (he2.symm ▸ List.mem_append_right p1' (List.mem_cons_self _ _)) h2
      | cons c2 p2' =>
          simp only [List.cons_append, List.cons.injEq] at he
          obtain ⟨rfl, he2⟩ := he
          obtain ⟨hp, hn⟩ := ih he2
          exact ⟨by rw [hp], hn⟩

/-- C6 (confirmed; spec-modelled — the repository contains no conflict
detector, so `detectSingularPlural` is modelled from spec §4.5).  A
directory set containing both `w` and `ws` at the same nesting level
produces exactly one conflict for that pair, of Medium severity,
recommending the plural form. -/
theorem c6_singular_plural_conflict (dirs : List (Chars × Chars)) (p w : Chars)
    (hnd : dirs.Nodup)
    (hclean : ∀ d ∈ dirs, ('/' : Char) ∉ d.2)
    (hw : (p, w) ∈ dirs) (hws : (p, w ++ txt "s") ∈ dirs) :
    (detectSingularPlural dirs).count (spConflict p w) = 1
    ∧ (spConflict p w).severity = Severity.medium
    ∧ (spConflict p w).recommendation = joinPath p (w ++ txt "s") := by
  refine ⟨?_, rfl, rfl⟩
  show ((detectSingularPlural dirs).countP fun c => decide (c = spConflict p w)) = 1
  unfold detectSingularPlural
  rw [countP_filterMap,
    List.countP_congr
      (q := fun d => decide (d = ((p, w ++ txt "s") : Chars × Chars))) ?_]
  · exact countP_decide_eq_one dirs _ hnd hws
  · intro d hd
    obtain ⟨q, n⟩ := d
    show _ ↔ decide ((q, n) = ((p, w ++ txt "s") : Chars × Chars)) = true
    simp only [decide_eq_true_eq]
    by_cases hdq : (q, n) = (p, w ++ txt "s")
    · rw [hdq]
      have hsome : spConflictAt dirs (p, w ++ txt "s")
          = some (spConflict p ((w ++ txt "s").dropLast)) := by
        show (if endsS (w ++ txt "s") = true ∧ (p, (w ++ txt "s").dropLast) ∈ dirs then
            some (spConflict p ((w ++ txt "s").dropLast)) else none)
          = some (spConflict p ((w ++ txt "s").dropLast))
        rw [if_pos ⟨endsS_concat w, by rw [dropLast_concat_s]; exact hw⟩]
      rw [hsome, dropLast_concat_s]
      simp
    · refine ⟨fun hLHS => ?_, fun he => absurd he hdq⟩
      cases hsc : spConflictAt dirs (q, n) with
      | none => rw [hsc] at hLHS; simp at hLHS
      | some c =>
          rw [hsc] at hLHS
          simp only [Option.elim, decide_eq_true_eq] at hLHS
          subst hLHS
          simp only [spConflictAt] at hsc
          split at hsc
          · next hguard =>
              simp only [Option.some.injEq] at hsc
              have hdirs := congrArg Conflict.directories hsc
              simp only [spConflict, List.cons.injEq, and_true] at hdirs
              obtain ⟨h1st, h2nd⟩ := hdirs
              have hslash : ('/' : Char) ∉ (List.dropLast n) := fun hm =>
                hclean (q, n) hd (List.dropLast_subset n hm)
              obtain ⟨hq, hn⟩ := joinPath_inj hslash (hclean (p, w) hw) h1st
              obtain ⟨m, hms⟩ := endsS_shape n hguard.1
              have hnw : n = w ++ txt "s" := by
                rw [hms, show txt "s" = ['s'] from rfl]
                rw [hms, List.dropLast_concat] at hn
                rw [hn]
              exact Prod.ext hq hnw
          · exact absurd hsc (by simp)

/-- C6 witness: a scan containing `src/model` and `src/models` yields
exactly one conflict for that pair. -/
theorem c6_witness :
    (detectSingularPlural [(txt "src", txt "model"), (txt "src", txt "models")]).count
      (spConflict (txt "src") (txt "model")) = 1 :=
  (c6_singular_plural_conflict [(txt "src", txt "model"), (txt "src", txt "models")]
    (txt "src") (txt "model") (by decide) (by decide) (by decide) (by decide)).1

/-!
Splitting lemmas: behaviour of `splitFirst` on text of the shape
`pre ++ sep ++ rest` whose first `sep` occurrence is the explicit one.
-/

theorem isPrefixOf_append_self : ∀ (sep r : Chars), sep.isPrefixOf (sep ++ r) = true
  | [], r => by cases r <;> rfl
  | c :: cs, r => by simp [List.isPrefixOf, isPrefixOf_append_self cs r]

theorem splitFirst_eq_none (sep s : Chars) (h : occursIn sep s = false) :
    splitFirst sep s = none := by
  cases hs : splitFirst sep s with
  | none => rfl
  | some v => unfold occursIn at h; rw [hs] at h; simp at h

theorem splitFirst_clean (sep pre r : Chars)
    (h : ∀ i, i < pre.length → sep.isPrefixOf ((pre ++ (sep ++ r)).drop i) = false) :
    splitFirst sep (pre ++ (sep ++ r)) = some (pre, r) := by
  induction pre with
  | nil =>
      simp only [List.nil_append]
      unfold splitFirst
      rw [if_pos (isPrefixOf_append_self sep r), List.drop_left]
  | cons c pre' ih =>
      have h0 : sep.isPrefixOf ((c :: pre') ++ (sep ++ r)) = false := by
        simpa using h 0 (by simp)
      rw [List.cons_append]
      unfold splitFirst
      rw [if_neg (by rw [show (c :: (pre' ++ (sep ++ r))) = (c :: pre') ++ (sep ++ r) from rfl, h0]; simp)]
      have hrec : splitFirst sep (pre' ++ (sep ++ r)) = some (pre', r) := by
        refine ih fun i hi => ?_
        have := h (i + 1) (by simpa using Nat.succ_lt_succ hi)
        simpa using this
      show (splitFirst sep (pre' ++ (sep ++ r))).map (fun p => (c :: p.1, p.2))
        = some (c :: pre', r)
      rw [hrec]
      rfl

theorem pyIndex1_clean (sep s pre r : Chars)
    (hsp : splitFirst sep s = some (pre, r))
    (hr : occursIn sep r = false) :
    pyIndex1 sep s = r := by
  unfold pyIndex1
  rw [hsp]
  show (match splitFirst sep r with | none => r | some (m, _) => m) = r
  rw [splitFirst_eq_none sep r hr]

theorem splitLines_cons_nl (z : Chars) : splitLines ('\n' :: z) = [] :: splitLines z := by
  simp only [splitLines, if_true]

theorem splitLines_no_nl (x : Chars) (hx : ('\n' : Char) ∉ x) : splitLines x = [x] := by
  induction x with
  | nil => rfl
  | cons c cs ih =>
      have hc : ¬ c = '\n' := fun he => hx (he ▸ List.mem_cons_self c cs)
      simp only [splitLines]
      rw [if_neg hc, ih fun hm => hx (List.mem_cons_of_mem c hm)]

theorem splitLines_append_nl (x t : Chars) (hx : ('\n' : Char) ∉ x) :
    splitLines (x ++ '\n' :: t) = x :: splitLines t := by
  induction x with
  | nil => simpa using splitLines_cons_nl t
  | cons c cs ih =>
      have hc : ¬ c = '\n' := fun he => hx (he ▸ List.mem_cons_self c cs)
      rw [List.cons_append]
      simp only [splitLines]
      rw [if_neg hc, ih fun hm => hx (List.mem_cons_of_mem c hm)]

theorem splitLines_blocks (x : Chars) (es : List Chars) (hx : ('\n' : Char) ∉ x)
    (hes : ∀ e ∈ es, ('\n' : Char) ∉ e) :
    splitLines (x ++ (es.map fun e => '\n' :: e).flatten) = x :: es := by
  induction es generalizing x with
  | nil => simpa using splitLines_no_nl x hx
  | cons e es' ih =>
      rw [List.map_cons, List.flatten_cons,
        show x ++ (('\n' :: e) ++ (es'.map fun e => '\n' :: e).flatten)
          = x ++ '\n' :: (e ++ (es'.map fun e => '\n' :: e).flatten) from by simp,
        splitLines_append_nl x _ hx,
        ih e (hes e (List.mem_cons_self e es')) fun e' he' =>
          hes e' (List.mem_cons_of_mem e he')]

theorem changeDesc_no_nl (mods : List ProjMod) (es : List Chars) :
    ('\n' : Char) ∉ changeDesc mods es := by
  unfold changeDesc
  split <;> decide

/-!
Claim C7: the history log of `create_project_llm`.
-/

/-- C7 (confirmed).  Round trip through the project aggregator: reading
back the `@recent_changes:` section of the `PROJECT.llm` written by
`create_project_llm` yields exactly one new timestamped entry at the
front, followed by the previous run's entries truncated to the first 9
(so at most 10 in total, oldest dropped) carried over unedited.  The
hypotheses state that the timestamp contains no newline, that the
carried entries are well-formed history lines (stripped, dash-prefixed,
newline-free — which is how `extractChanges` produces them), that the
fresh entry is strip-invariant, and that the marker `@recent_changes:`
occurs nowhere before its section header nor inside the section body. -/
theorem c7_history_bounded (mods : List ProjMod) (deps : List (Chars × List Chars))
    (baselines : List Chars) (cwd now : Chars) (prev : Option Chars)
    (hnow : ('\n' : Char) ∉ now)
    (hcar : ∀ e ∈ prevChanges prev,
      pyStrip e = e ∧ (txt "-").isPrefixOf e = true ∧ ('\n' : Char) ∉ e)
    (hne : pyStrip (txt "- " ++ now ++ txt ": " ++ changeDesc mods (prevChanges prev))
      = txt "- " ++ now ++ txt ": " ++ changeDesc mods (prevChanges prev))
    (hfront : ∀ i,
      i < (projFront mods deps baselines cwd (prevVersion prev) now (prevPaths prev)).length →
      recentChangesMarker.isPrefixOf
        ((createProjectLlm mods deps baselines cwd now prev).drop i) = false)
    (hbody : occursIn recentChangesMarker
      (projChangesBody now (changeDesc mods (prevChanges prev)) (prevChanges prev)) = false) :
    extractChanges (createProjectLlm mods deps baselines cwd now prev)
      = (txt "- " ++ now ++ txt ": " ++ changeDesc mods (prevChanges prev))
          :: (prevChanges prev).take 9
    ∧ (extractChanges (createProjectLlm mods deps baselines cwd now prev)).length ≤ 10 := by
  have hr : createProjectLlm mods deps baselines cwd now prev
      = projFront mods deps baselines cwd (prevVersion prev) now (prevPaths prev)
        ++ (recentChangesMarker
          ++ projChangesBody now (changeDesc mods (prevChanges prev)) (prevChanges prev)) := by
    unfold createProjectLlm
    rw [List.append_assoc]
  have hs : splitFirst recentChangesMarker (createProjectLlm mods deps baselines cwd now prev)
      = some (projFront mods deps baselines cwd (prevVersion prev) now (prevPaths prev),
          projChangesBody now (changeDesc mods (prevChanges prev)) (prevChanges prev)) := by
    rw [hr]
    refine splitFirst_clean _ _ _ fun i hi => ?_
    rw [← hr]
    exact hfront i hi
  have hocc : occursIn recentChangesMarker
      (createProjectLlm mods deps baselines cwd now prev) = true := by
    unfold occursIn
    rw [hs]
    rfl
  have hidx : pyIndex1 recentChangesMarker (createProjectLlm mods deps baselines cwd now prev)
      = projChangesBody now (changeDesc mods (prevChanges prev)) (prevChanges prev) :=
    pyIndex1_clean _ _ _ _ hs hbody
  have hnlE : ('\n' : Char)
      ∉ (txt "- " ++ now ++ txt ": " ++ changeDesc mods (prevChanges prev)) := by
    intro hm
    simp only [List.mem_append] at hm
    rcases hm with ((hm | hm) | hm) | hm
    · exact absurd hm (by decide)
    · exact hnow hm
    · exact absurd hm (by decide)
    · exact changeDesc_no_nl mods _ hm
  have hc9 : ∀ e ∈ (prevChanges prev).take 9, ('\n' : Char) ∉ e :=
    fun e he => (hcar e (List.take_subset _ _ he)).2.2
  have hBshape : projChangesBody now (changeDesc mods (prevChanges prev)) (prevChanges prev)
      = '\n' :: ((txt "- " ++ now ++ txt ": " ++ changeDesc mods (prevChanges prev))
          ++ (((prevChanges prev).take 9).map fun ch => '\n' :: ch).flatten) := by
    unfold projChangesBody
    simp [txt, List.append_assoc]
  have hsplit : splitLines
      (projChangesBody now (changeDesc mods (prevChanges prev)) (prevChanges prev))
      = [] :: (txt "- " ++ now ++ txt ": " ++ changeDesc mods (prevChanges prev))
          :: (prevChanges prev).take 9 := by
    rw [hBshape, splitLines_cons_nl, splitLines_blocks _ _ hnlE hc9]
  have hmap9 : ((prevChanges prev).take 9).map pyStrip = (prevChanges prev).take 9 := by
    rw [List.map_congr_left fun e he => (hcar e (List.take_subset _ _ he)).1]
    exact List.map_id _
  have hpos : (txt "-").isPrefixOf
      (txt "- " ++ now ++ txt ": " ++ changeDesc mods (prevChanges prev)) = true := by
    simp [txt, List.isPrefixOf]
  have hmain : extractChanges (createProjectLlm mods deps baselines cwd now prev)
      = ((txt "- " ++ now ++ txt ": " ++ changeDesc mods (prevChanges prev))
          :: (prevChanges prev).take 9).take 10 := by
    unfold extractChanges
    rw [if_pos hocc, hidx, hsplit, List.map_cons, List.map_cons, hne, hmap9,
      show pyStrip ([] : Chars) = [] from rfl,
      List.filter_cons_of_neg (by decide), List.filter_cons_of_pos hpos,
      List.filter_eq_self.mpr fun e he => (hcar e (List.take_subset _ _ he)).2.1]
  have hlen : ((txt "- " ++ now ++ txt ": " ++ changeDesc mods (prevChanges prev))
      :: (prevChanges prev).take 9).length ≤ 10 := by
    simp only [List.length_cons, List.length_take]
    omega
  constructor
  · rw [hmain, List.take_of_length_le hlen]
  · rw [hmain, List.take_of_length_le hlen]
    exact hlen

set_option maxRecDepth 100000 in
/-- C7 witness: a first run (no previous `PROJECT.llm`) over one module
appends exactly the one new entry and carries the empty history. -/
theorem c7_witness :
    extractChanges (createProjectLlm [⟨txt "auth", none⟩] [] [] (txt "p") (txt "T1") none)
      = [txt "- T1: Added new modules"] :=
  by
    have h := (c7_history_bounded [⟨txt "auth", none⟩] [] [] (txt "p") (txt "T1") none
      (by decide) (by decide) (by decide) (by decide) (by decide)).1
    simpa using h

/-!
Claim C2.
-/

set_option maxRecDepth 4096 in
/-- C2 counterexample: an existing descriptor with a non-empty purpose
section and an authored `@notes:` section placed between the interface
marker and the behavior marker; after re-synthesis with a new function
added, the `@notes:` section has vanished from the rewritten descriptor
even though it is not a recognized derived section — so "every named
section not recognized as derived is copied byte-for-byte" fails. -/
theorem c2_counterexample :
    occursIn (txt "@notes:")
        (txt "@purpose: Handles auth\n\n@interface:\n- login()\n\n@notes: keep\n\n@behavior:\n- ok\n")
      = true
    ∧ occursIn (txt "@notes:")
        ((updateContextContent ⟨[], [txt "login", txt "register"]⟩
            (txt "@purpose: Handles auth\n\n@interface:\n- login()\n\n@notes: keep\n\n@behavior:\n- ok\n")).getD [])
      = false
    ∧ (updateContextContent ⟨[], [txt "login", txt "register"]⟩
        (txt "@purpose: Handles auth\n\n@interface:\n- login()\n\n@notes: keep\n\n@behavior:\n- ok\n")).isSome
      = true
    ∧ occursIn (txt "@purpose: Handles auth")
        ((updateContextContent ⟨[], [txt "login", txt "register"]⟩
            (txt "@purpose: Handles auth\n\n@interface:\n- login()\n\n@notes: keep\n\n@behavior:\n- ok\n")).getD [])
      = true := by decide

/-- C2 (corrected).  On a descriptor of the shape
`pre ++ "@interface:" ++ mid ++ "@behavior:" ++ post` (first marker
occurrences as shown), the merge preserves `pre` — and with it the whole
purpose section, which precedes the interface marker — byte-for-byte,
recomputes the interface list, and preserves `post` byte-for-byte from
the behavior marker on; but everything strictly between the interface
marker and the behavior marker (`mid`, including any authored named
section there) is discarded, and a newline is inserted before the
rewritten interface marker. -/
theorem c2_amended (a : Analysis) (pre mid post : Chars)
    (h1 : ∀ i, i < pre.length →
      interfaceMarker.isPrefixOf
        ((pre ++ interfaceMarker ++ mid ++ behaviorMarker ++ post).drop i) = false)
    (h2 : ∀ i, i < (pre ++ interfaceMarker ++ mid).length →
      behaviorMarker.isPrefixOf
        ((pre ++ interfaceMarker ++ mid ++ behaviorMarker ++ post).drop i) = false)
    (h3 : occursIn behaviorMarker post = false) :
    updateContextContent a (pre ++ interfaceMarker ++ mid ++ behaviorMarker ++ post)
      = some (pre ++ txt "\n@interface:" ++ ifaceBody a ++ txt "\n@behavior:" ++ post) := by
  have e1 : pre ++ interfaceMarker ++ mid ++ behaviorMarker ++ post
      = pre ++ (interfaceMarker ++ (mid ++ (behaviorMarker ++ post))) := by
    simp [List.append_assoc]
  have hs1 : splitFirst interfaceMarker
      (pre ++ interfaceMarker ++ mid ++ behaviorMarker ++ post)
      = some (pre, mid ++ (behaviorMarker ++ post)) := by
    rw [e1]
    refine splitFirst_clean _ _ _ fun i hi => ?_
    rw [← e1]
    exact h1 i hi
  have e2 : pre ++ interfaceMarker ++ mid ++ behaviorMarker ++ post
      = (pre ++ interfaceMarker ++ mid) ++ (behaviorMarker ++ post) := by
    simp [List.append_assoc]
  have hs2 : splitFirst behaviorMarker
      (pre ++ interfaceMarker ++ mid ++ behaviorMarker ++ post)
      = some (pre ++ interfaceMarker ++ mid, post) := by
    rw [e2]
    refine splitFirst_clean _ _ _ fun i hi => ?_
    rw [← e2]
    exact h2 i hi
  have hocc : occursIn behaviorMarker
      (pre ++ interfaceMarker ++ mid ++ behaviorMarker ++ post) = true := by
    unfold occursIn
    rw [hs2]
    rfl
  have hidx : pyIndex1 behaviorMarker
      (pre ++ interfaceMarker ++ mid ++ behaviorMarker ++ post) = post :=
    pyIndex1_clean _ _ _ _ hs2 h3
  simp only [updateContextContent, hs1, hocc, hidx, newInterface, if_true]
  simp [List.append_assoc]

/-- C2 witness: applying the amended merge behaviour to a concrete
descriptor with purpose `P`, an old interface entry and a behavior
section. -/
theorem c2_amended_witness :
    updateContextContent ⟨[], [txt "login"]⟩
        (txt "@purpose: P\n\n" ++ interfaceMarker ++ txt "\n- old()\n\n"
          ++ behaviorMarker ++ txt "\n- b\n")
      = some (txt "@purpose: P\n\n" ++ txt "\n@interface:"
          ++ ifaceBody ⟨[], [txt "login"]⟩ ++ txt "\n@behavior:" ++ txt "\n- b\n") :=
  c2_amended ⟨[], [txt "login"]⟩ (txt "@purpose: P\n\n") (txt "\n- old()\n\n")
    (txt "\n- b\n") (by decide) (by decide) (by decide)

/-!
Claims C8, C9 and C10.
-/

/-- C8 counterexample: a readable file that fails to parse (its `walk` is
`none` because `ast.parse` raised on `def broken(:`) yields empty symbol
lists, but its import line still produces a dependency edge — import
extraction in `analyze_dependencies` is line-based and does not parse, so
the claim's "empty ... import lists" fails for syntax-error files. -/
theorem c8_counterexample :
    analyzeDependencies
        [(txt "auth",
          [⟨txt "service.py", some (txt "from models import User\ndef broken(:"), none⟩]),
         (txt "models", [⟨txt "user.py", some (txt "x = 1"), some []⟩])]
      = [(txt "auth", [txt "models"])]
    ∧ analyzePythonFile
        ⟨txt "service.py", some (txt "from models import User\ndef broken(:"), none⟩
      = ⟨[], []⟩ := by decide

/-- C8 (corrected).  A file that fails to parse yields empty symbol lists
and the symbol-collection run continues unchanged over the remaining
files; a file that cannot be read contributes no imports and the
dependency run continues.  (A readable but syntactically invalid file
still contributes imports — see the counterexample.) -/
theorem c8_amended (pre post : List PyFile) (f : PyFile)
    (pre2 post2 : List PyFile) (g : PyFile) (segs : List Chars)
    (hf : f.walk = none) (hg : g.raw = none) :
    analyzePythonFile f = ⟨[], []⟩
    ∧ collectAnalyses (pre ++ f :: post) = collectAnalyses (pre ++ post)
    ∧ moduleDeps segs (pre2 ++ g :: post2) = moduleDeps segs (pre2 ++ post2) := by
  refine ⟨?_, ?_, ?_⟩
  · simp [analyzePythonFile, hf]
  · unfold collectAnalyses
    rw [List.foldl_append, List.foldl_append, List.foldl_cons]
    congr 1
    unfold collectStep
    split
    · rfl
    · simp [analyzePythonFile, hf]
  · unfold moduleDeps
    rw [List.foldl_append, List.foldl_append, List.foldl_cons]
    congr 1
    unfold depStep
    rw [hg]

/-- C8 witness: applying the amended statement to a concrete parse-failed
file shows it contributes empty symbol lists. -/
theorem c8_amended_witness :
    analyzePythonFile ⟨txt "broken.py", some (txt "def broken(:"), none⟩ = ⟨[], []⟩ :=
  (c8_amended [] [] ⟨txt "broken.py", some (txt "def broken(:"), none⟩
    [] [] ⟨txt "enc.py", none, none⟩ [] rfl rfl).1

/-- C9 counterexample: an existing descriptor without the `@interface:`
marker is left untouched — `update_contexts` writes nothing for it
(result `none`), instead of writing a fresh descriptor and discarding
the old one as the claim states. -/
theorem c9_counterexample :
    updateContextContent ⟨[], [txt "login"]⟩
        (txt "@component: X\n@purpose: handwritten notes\n")
      = none := by decide

/-- C9 (corrected).  An existing descriptor whose text lacks the
recognized interface marker is skipped: the merge produces no write for
it (the file keeps its old bytes, which are not discarded), and the
update run continues unchanged over the other descriptors rather than
aborting. -/
theorem c9_amended (a : Analysis) (content : Chars)
    (pre post : List (Chars × Analysis))
    (h : occursIn interfaceMarker content = false) :
    updateContextContent a content = none
    ∧ updateAllContexts (pre ++ (content, a) :: post) = updateAllContexts (pre ++ post) := by
  have hn : splitFirst interfaceMarker content = none := by
    cases hs : splitFirst interfaceMarker content with
    | none => rfl
    | some v => unfold occursIn at h; rw [hs] at h; simp at h
  have h1 : updateContextContent a content = none := by
    unfold updateContextContent; rw [hn]
  refine ⟨h1, ?_⟩
  unfold updateAllContexts
  rw [List.filterMap_append, List.filterMap_append]
  congr 1
  rw [List.filterMap_cons]
  simp only [h1]

/-- C9 witness: applying the amended statement to a concrete
marker-free descriptor shows it is skipped. -/
theorem c9_amended_witness :
    updateContextContent ⟨[], []⟩ (txt "@notes: free text only\n") = none :=
  (c9_amended ⟨[], []⟩ (txt "@notes: free text only\n") [] [] (by decide)).1

/-- C10 (confirmed).  Files whose names start with `test_` are skipped by
the symbol-collection loop, so their symbols never reach a generated or
updated descriptor's interface section, yet such a file still counts
toward the module gate (`any(f.endswith('.py'))`) and a directory
containing it still receives a descriptor. -/
theorem c10_test_exclusion (mpath : Chars) (pre post : List PyFile) (tf : PyFile)
    (h1 : (txt "test_").isPrefixOf tf.name = true)
    (h2 : (txt ".py").isSuffixOf tf.name = true) :
    collectAnalyses (pre ++ tf :: post) = collectAnalyses (pre ++ post)
    ∧ hasPyGate (pre ++ tf :: post) = true
    ∧ (generateContextLlm mpath (pre ++ tf :: post)).isSome = true := by
  refine ⟨?_, ?_, ?_⟩
  · unfold collectAnalyses
    rw [List.foldl_append, List.foldl_append, List.foldl_cons]
    congr 1
    unfold collectStep
    rw [if_pos h1]
  · unfold hasPyGate
    rw [List.any_append]
    simp [h2]
  · unfold generateContextLlm
    rw [if_neg (by simp)]
    rfl

/-- C10 witness: a directory holding only `test_auth.py` (which defines a
public function `helper`) gets the same — empty — collected analysis as a
directory with no files at all. -/
theorem c10_witness :
    collectAnalyses
        [⟨txt "test_auth.py", some (txt "def helper(): pass"),
          some [.funcNode (txt "helper") 0]⟩]
      = collectAnalyses [] :=
  (c10_test_exclusion (txt "auth") [] []
    ⟨txt "test_auth.py", some (txt "def helper(): pass"),
     some [.funcNode (txt "helper") 0]⟩ (by decide) (by decide)).1

/-!
Claim C1: idempotence of the full analysis.
-/

set_option maxRecDepth 100000 in
/-- C1 counterexample: two consecutive runs of `create_project_llm` over
the same unchanged (here empty) module set, at timestamps `T1` and `T2`,
write different `PROJECT.llm` bytes — the `@updated:` field embeds the
run timestamp and a new history entry is prepended — so the second run's
descriptor files are not byte-identical to the first run's. -/
theorem c1_counterexample :
    createProjectLlm [] [] [] (txt "p") (txt "T2")
        (some (createProjectLlm [] [] [] (txt "p") (txt "T1") none))
      ≠ createProjectLlm [] [] [] (txt "p") (txt "T1") none := by decide

/-- C1 (corrected).  On an unchanged tree the second run creates no
`CONTEXT.llm` (every directory already has one) and rewrites none (none
is outdated by modification time), so the per-directory descriptors stay
byte-identical; but the `PROJECT.llm` written by the second run is not
byte-identical to the first run's: the `@updated:` field embeds the run
timestamp and one new history entry is prepended to `@recent_changes:`.
Both runs produce `projFront ... ++ "@recent_changes:" ++
projChangesBody ...` with the same carried version `1.0.0`, the same
critical-paths placeholder bytes and the same coverage inputs; the
architecture and dependency-graph sections, however, are rendered from
each run's own enumeration of the per-module dependency sets (`deps1`,
`deps2` below — Python set iteration order is not reproducible across
processes), so the theorem does not force them to coincide: they agree
only when the two runs enumerate the sets identically.  The cross-run
disagreement is thus confined to the embedded timestamp, the
`@recent_changes:` body (one new entry prepended, the first run's
entries carried), and the per-module ordering of names inside the
`[@deps: ...]` and `@dependency_graph` lines. -/
theorem c1_amended (mods : List ProjMod) (deps1 deps2 : List (Chars × List Chars))
    (baselines : List Chars) (cwd t1 t2 : Chars) (dirs : List DirEntry) (es : List Chars)
    (hall : ∀ d ∈ dirs, d.hasContext = true)
    (hfresh : ∀ d ∈ dirs, ∀ t ∈ d.pyMtimes, t ≤ d.ctxMtime)
    (hv : extractVersion (createProjectLlm mods deps1 baselines cwd t1 none) = txt "1.0.0")
    (hp : extractPaths (createProjectLlm mods deps1 baselines cwd t1 none)
      = [txt "- [Analyze code to determine critical paths]",
         txt "- [Add user flow paths here]"])
    (hc : extractChanges (createProjectLlm mods deps1 baselines cwd t1 none) = es) :
    createMissingContexts dirs = []
    ∧ outdatedContexts dirs = []
    ∧ createProjectLlm mods deps1 baselines cwd t1 none
        = projFront mods deps1 baselines cwd (txt "1.0.0") t1 []
          ++ recentChangesMarker ++ projChangesBody t1 (changeDesc mods []) []
    ∧ createProjectLlm mods deps2 baselines cwd t2
          (some (createProjectLlm mods deps1 baselines cwd t1 none))
        = projFront mods deps2 baselines cwd (txt "1.0.0") t2 []
          ++ recentChangesMarker ++ projChangesBody t2 (changeDesc mods es) es := by
  refine ⟨?_, ?_, rfl, ?_⟩
  · unfold createMissingContexts
    refine List.filterMap_eq_nil_iff.mpr fun d hd => ?_
    simp [hall d hd]
  · unfold outdatedContexts
    refine List.filter_eq_nil_iff.mpr fun d hd => ?_
    simp only [List.any_eq_true, decide_eq_true_eq, not_exists]
    rintro t ⟨ht, hlt⟩
    exact absurd hlt (not_lt.mpr (hfresh d hd t ht))
  · have hpp : projPathsPart
        [txt "- [Analyze code to determine critical paths]",
         txt "- [Add user flow paths here]"]
        = projPathsPart [] := by decide
    show projFront mods deps2 baselines cwd
        (prevVersion (some (createProjectLlm mods deps1 baselines cwd t1 none))) t2
        (prevPaths (some (createProjectLlm mods deps1 baselines cwd t1 none)))
      ++ recentChangesMarker
      ++ projChangesBody t2
          (changeDesc mods (prevChanges (some (createProjectLlm mods deps1 baselines cwd t1 none))))
          (prevChanges (some (createProjectLlm mods deps1 baselines cwd t1 none)))
      = _
    rw [show prevVersion (some (createProjectLlm mods deps1 baselines cwd t1 none))
        = extractVersion (createProjectLlm mods deps1 baselines cwd t1 none) from rfl,
      show prevPaths (some (createProjectLlm mods deps1 baselines cwd t1 none))
        = extractPaths (createProjectLlm mods deps1 baselines cwd t1 none) from rfl,
      show prevChanges (some (createProjectLlm mods deps1 baselines cwd t1 none))
        = extractChanges (createProjectLlm mods deps1 baselines cwd t1 none) from rfl,
      hv, hp, hc,
      show projFront mods deps2 baselines cwd (txt "1.0.0") t2
          [txt "- [Analyze code to determine critical paths]",
           txt "- [Add user flow paths here]"]
        = projFront mods deps2 baselines cwd (txt "1.0.0") t2 [] from by
        unfold projFront
        rw [hpp]]

set_option maxRecDepth 100000 in
/-- C1 witness: applying the amended statement at a concrete one-module
tree whose directory already has a context and whose context is at least
as new as its sources. -/
theorem c1_amended_witness :
    createMissingContexts [⟨txt "auth", [], true, 5, [3]⟩] = [] :=
  (c1_amended [⟨txt "auth", none⟩] [] [] [] (txt "p") (txt "T1") (txt "T2")
    [⟨txt "auth", [], true, 5, [3]⟩] [txt "- T1: Added new modules"]
    (by decide) (by decide) (by decide) (by decide) (by decide)).1

end CCB
